import Mathlib

/-!
Shallow embedding of `src/main.py` (recipe-meltano): a FastAPI control
surface over a `pipeline_runs` table, with a background task that invokes
the external Meltano executor and records the run's lifecycle.

Modelling conventions:
* The store is the list of rows of the `pipeline_runs` table.
* Timestamps (`datetime`) are abstracted: `start_time` as a `Nat` ordinal,
  and the formatted `strftime` text in the completed-output template as an
  opaque `String` parameter.
* The external world seen by the background task (the Meltano subprocess
  and the summary queries) is an explicit environment value; exceptions
  raised by a collaborator are carried as their `str(e)` message.
* Database commits are modelled as succeeding; each commit of the task is
  recorded in order as a (status, output) pair applied to the record.
-/

namespace RecipeMeltano

/-- ESC, the character 0x1B that starts every ANSI escape sequence. -/
def escChar : Char := Char.ofNat 27

/-- the character class between at-sign and underscore, skipping the open
bracket, from the regex in `clean_ansi` (first alternative). -/
def isFeByte (c : Char) : Bool :=
  decide (0x40 ≤ c.toNat ∧ c.toNat ≤ 0x5A) || decide (0x5C ≤ c.toNat ∧ c.toNat ≤ 0x5F)

/-- CSI parameter bytes, digits through question mark. -/
def isCsiParam (c : Char) : Bool := decide (0x30 ≤ c.toNat ∧ c.toNat ≤ 0x3F)

/-- CSI intermediate bytes, space through slash. -/
def isCsiInterm (c : Char) : Bool := decide (0x20 ≤ c.toNat ∧ c.toNat ≤ 0x2F)

/-- CSI final bytes, at-sign through tilde. -/
def isCsiFinal (c : Char) : Bool := decide (0x40 ≤ c.toNat ∧ c.toNat ≤ 0x7E)

/-- given the characters after an ESC, return the remainder after the
ANSI-escape regex match at this position, or `none` when it does not match. -/
def matchAnsi : List Char → Option (List Char)
  | [] => none
  | d :: rest2 =>
    if isFeByte d then some rest2
    else if d = Char.ofNat 0x5B then
      let afterParams := rest2.dropWhile isCsiParam
      let afterInterm := afterParams.dropWhile isCsiInterm
      match afterInterm with
      | f :: rest3 => if isCsiFinal f then some rest3 else none
      | [] => none
    else none

/-- scanner for `re.sub` with the ANSI-escape pattern: at each position, if
the pattern matches, drop the matched characters; otherwise keep the
character and continue at the next position. Each step consumes at least
one character, so fuel equal to the length of the scanned list is always
enough; the recursion is on the fuel so the function reduces in the kernel. -/
def cleanAnsiAux : Nat → List Char → List Char
  | 0, _ => []
  | _ + 1, [] => []
  | fuel + 1, c :: rest =>
    if c = escChar then
      match matchAnsi rest with
      | some rest2 => cleanAnsiAux fuel rest2
      | none => c :: cleanAnsiAux fuel rest
    else c :: cleanAnsiAux fuel rest

/-- `clean_ansi`: remove ANSI color codes from text. -/
def clean_ansi (s : String) : String := String.mk (cleanAnsiAux s.data.length s.data)

/-- row returned by the first summary query; the float rendering written by
the Python format spec for revenue is abstracted as its rendered text. -/
structure SummaryRow where
  total_records : Nat
  total_revenue_text : String
  earliest_date : String
  latest_date : String
deriving Repr, DecidableEq

/-- row returned by the top-products query, numeric fields pre-rendered. -/
structure TopRow where
  name : String
  revenue_text : String
  date : String
deriving Repr, DecidableEq

/-- result of one database step inside `get_data_summary`: either a value,
or an exception carrying its `str(e)` message. -/
inductive QueryStep (α : Type) where
  | ok : α → QueryStep α
  | exn : String → QueryStep α
deriving Repr, DecidableEq

/-- environment for `get_data_summary`: the outcome of building and running
the first query (`fetchone`, which may return no row) and the top-products
query. An exception while building the query text (for example the unbound
name `text` in the source) is carried by the `exn` case of the first step. -/
structure SummaryDb where
  firstQuery : QueryStep (Option SummaryRow)
  topQuery : QueryStep (List TopRow)
deriving Repr, DecidableEq

/-- text assembled by `get_data_summary` when both queries return data. -/
def summaryText (row : SummaryRow) (tops : List TopRow) : String :=
  "Data Summary:\n-------------\nTotal Records: " ++ toString row.total_records ++
  "\nTotal Revenue: $" ++ row.total_revenue_text ++
  "\nDate Range: " ++ row.earliest_date ++ " to " ++ row.latest_date ++
  "\n\nTop Products by Revenue:\n---------------------" ++
  String.intercalate "\n"
    (tops.map (fun t => "\n" ++ t.name ++ ": $" ++ t.revenue_text ++ " (" ++ t.date ++ ")"))

/-- body of the try-block of `get_data_summary`; `Except.error` is an
exception escaping the block. -/
def get_data_summary_try (db : SummaryDb) : Except String String :=
  match db.firstQuery with
  | .exn e => .error e
  | .ok none => .ok "No records found in the data table"
  | .ok (some row) =>
    if row.total_records = 0 then .ok "No records found in the data table"
    else
      match db.topQuery with
      | .exn e => .error e
      | .ok tops => .ok (summaryText row tops)

/-- `get_data_summary`: the try-block with its catch-all handler, which
turns any exception into an error string. -/
def get_data_summary (db : SummaryDb) : String :=
  match get_data_summary_try db with
  | .ok s => s
  | .error e => "Error analyzing data: " ++ e

/-- external world seen by one execution of `run_pipeline_task`: either
some step before the exit code was known (`Project.find`, `Popen`,
`communicate`) raised, or the subprocess ran to an exit code with captured
standard streams and the summary queries see the environment `db`. -/
inductive PipelineEnv where
  | prepRaises (e : String) : PipelineEnv
  | ranProcess (returncode : Int) (stdout stderr : String) (db : SummaryDb) : PipelineEnv
deriving Repr, DecidableEq

/-- observable outcome of one `run_pipeline_task` execution: the ordered
list of committed (status, output) writes to the run's record, and the
message of the exception propagating out of the task, if any. -/
structure TaskResult where
  commits : List (String × String)
  raised : Option String
deriving Repr, DecidableEq

/-- output text committed on the success path, as interpolated by the
f-string of `run_pipeline_task`. -/
def completedOutput (nowStr summary log : String) : String :=
  "Pipeline Execution Summary:\n-------------------------\nStatus: Completed Successfully\nTimestamp: " ++
  nowStr ++ "\n\n" ++ summary ++ "\n\nExecution Log:\n------------\n" ++ log

/-- `run_pipeline_task`: on nonzero exit code it commits a failed write
with the cleaned stderr, raises, and the outer handler commits a second
failed write with the generic message and re-raises; on exit code 0 it
commits one completed write; on an earlier exception the outer handler
commits one failed write and re-raises. `nowStr` is the `strftime` text of
the wall clock at the success write. -/
def run_pipeline_task (env : PipelineEnv) (nowStr : String) : TaskResult :=
  match env with
  | .prepRaises e =>
    { commits := [("failed", "Error during pipeline execution: " ++ e)],
      raised := some e }
  | .ranProcess rc _stdout stderr db =>
    let clean_output := clean_ansi stderr
    if rc ≠ 0 then
      let error_msg := "Pipeline failed with return code " ++ toString rc
      { commits := [("failed", "Error:\n" ++ clean_output),
                    ("failed", "Error during pipeline execution: " ++ error_msg)],
        raised := some error_msg }
    else
      { commits := [("completed", completedOutput nowStr (get_data_summary db) clean_output)],
        raised := none }

/-- one row of the `pipeline_runs` table. -/
structure PipelineRun where
  id : Nat
  start_time : Nat
  status : String
  output : Option String
deriving Repr, DecidableEq

/-- the `pipeline_runs` table, rows in insertion order. -/
abbrev Store := List PipelineRun

/-- primary key assigned by the store to a newly inserted row: one more
than the largest id present. -/
def nextId (store : Store) : Nat := (store.map (fun r => r.id)).foldr max 0 + 1

/-- response body of `POST /run`. -/
structure RunResponse where
  message : String
  run_id : Nat
deriving Repr, DecidableEq

/-- the record inserted by `POST /run`: status started, current timestamp,
no output. -/
def newRunRecord (store : Store) (now : Nat) : PipelineRun :=
  { id := nextId store, start_time := now, status := "started", output := none }

/-- `POST /run` handler body: insert one row with status started, return
the message and the fresh run id. Scheduling of the background task is the
caller's concern (FastAPI runs it after the response is sent). -/
def run_pipeline (store : Store) (now : Nat) : Store × RunResponse :=
  (store ++ [newRunRecord store now],
   { message := "Pipeline started", run_id := nextId store })

/-- response body of `GET /status/run_id`. -/
inductive StatusResponse where
  | errorResp (msg : String) : StatusResponse
  | found (run_id : Nat) (status : String) (start_time : Nat) (output : Option String) :
      StatusResponse
deriving Repr, DecidableEq

/-- `GET /status/run_id` handler body: primary-key lookup, error payload
when absent, otherwise the record's fields. -/
def get_status (store : Store) (run_id : Nat) : StatusResponse :=
  match store.find? (fun r => r.id == run_id) with
  | none => .errorResp "Run not found"
  | some r => .found r.id r.status r.start_time r.output

/-- HTTP view of `GET /status/run_id`: FastAPI returns a plain dict from
the handler, so the response status code is the default 200. -/
def http_get_status (store : Store) (run_id : Nat) : Nat × StatusResponse :=
  (200, get_status store run_id)

/-- HTTP view of `POST /run`: a plain dict return, so status code 200. -/
def http_post_run (store : Store) (now : Nat) : Store × (Nat × RunResponse) :=
  ((run_pipeline store now).1, (200, (run_pipeline store now).2))

/-- one entry of the `runs` array returned by `GET /runs`. -/
structure RunView where
  run_id : Nat
  status : String
  start_time : Nat
  output : Option String
deriving Repr, DecidableEq

/-- ordering used by the query of `GET /runs`: start_time descending. -/
def startTimeDesc (a b : PipelineRun) : Prop := b.start_time ≤ a.start_time

instance : DecidableRel startTimeDesc := fun a b => Nat.decLe b.start_time a.start_time

/-- `GET /runs` handler body: all rows ordered by start_time descending
(the relational ORDER BY is modelled as a sort), projected to their view. -/
def get_runs (store : Store) : List RunView :=
  (List.insertionSort startTimeDesc store).map
    (fun r => { run_id := r.id, status := r.status, start_time := r.start_time,
                output := r.output })

/-- an UPDATE of the run's row followed by COMMIT: set status and output on
the row with the given primary key. -/
def updateRun (store : Store) (rid : Nat) (st : String) (out : String) : Store :=
  store.map (fun r => if r.id == rid then { r with status := st, output := some out } else r)

/-- effect of one task commit on a single row. -/
def commitStep (rid : Nat) (r : PipelineRun) (c : String × String) : PipelineRun :=
  if r.id == rid then { r with status := c.1, output := some c.2 } else r

/-- cumulative effect of a list of task commits on a single row. -/
def applyCommits (cs : List (String × String)) (rid : Nat) (r : PipelineRun) : PipelineRun :=
  cs.foldl (commitStep rid) r

/-- store state after the background task for run `rid` has executed in
environment `env`: its commits applied in order. -/
def runTaskOnStore (store : Store) (rid : Nat) (env : PipelineEnv) (nowStr : String) : Store :=
  (run_pipeline_task env nowStr).commits.foldl (fun s c => updateRun s rid c.1 c.2) store

/-- statuses the record of one run carries over time: started at creation,
then the status of each commit of its background task, in order. -/
def statusTrace (env : PipelineEnv) (nowStr : String) : List String :=
  "started" :: (run_pipeline_task env nowStr).commits.map Prod.fst

/-- a status from which the spec allows no further transition. -/
def isTerminal (s : String) : Prop := s = "completed" ∨ s = "failed"

instance (s : String) : Decidable (isTerminal s) := by
  unfold isTerminal; infer_instance

/-- whether the environment makes the executor step of the task fail:
either a preparation exception or a nonzero exit code. -/
def taskFails (env : PipelineEnv) : Prop :=
  match env with
  | .prepRaises _ => True
  | .ranProcess rc _ _ _ => rc ≠ 0

instance (env : PipelineEnv) : Decidable (taskFails env) := by
  unfold taskFails; cases env <;> infer_instance

/-- message of the failed write that is committed last when the task fails. -/
def failureMessage : PipelineEnv → String
  | .prepRaises e => "Error during pipeline execution: " ++ e
  | .ranProcess rc _ _ _ =>
    "Error during pipeline execution: " ++ ("Pipeline failed with return code " ++ toString rc)

/-- message of the exception propagating out of the task, if any. -/
def raisedMessage : PipelineEnv → Option String
  | .prepRaises e => some e
  | .ranProcess rc _ _ _ =>
    if rc ≠ 0 then some ("Pipeline failed with return code " ++ toString rc) else none

instance : IsTotal PipelineRun startTimeDesc :=
  ⟨fun a b => Nat.le_total b.start_time a.start_time⟩

instance : IsTrans PipelineRun startTimeDesc :=
  ⟨fun _ _ _ hab hbc => Nat.le_trans hbc hab⟩

theorem mem_le_foldr_max {a : Nat} : ∀ {l : List Nat}, a ∈ l → a ≤ l.foldr max 0
  | [], h => absurd h (List.not_mem_nil a)
  | b :: t, h => by
    rcases List.mem_cons.mp h with rfl | ht
    · exact Nat.le_max_left a (t.foldr max 0)
    · exact Nat.le_trans (mem_le_foldr_max ht) (Nat.le_max_right b (t.foldr max 0))

theorem id_lt_nextId {store : Store} {r : PipelineRun} (h : r ∈ store) :
    r.id < nextId store := by
  have : r.id ∈ store.map (fun x => x.id) := List.mem_map_of_mem _ h
  have := mem_le_foldr_max this
  unfold nextId
  omega

theorem find?_updateRun {store : Store} {rid : Nat} {r : PipelineRun} (st out : String)
    (h : store.find? (fun x => x.id == rid) = some r) :
    (updateRun store rid st out).find? (fun x => x.id == rid) =
      some { r with status := st, output := some out } := by
  induction store with
  | nil => simp [List.find?] at h
  | cons a t ih =>
    by_cases ha : (a.id == rid) = true
    · simp only [List.find?, ha, Option.some.injEq] at h
      subst h
      simp [updateRun, List.find?, ha]
    · have ha' : (a.id == rid) = false := by simpa using ha
      simp only [List.find?, ha'] at h
      simp only [updateRun, List.map_cons]
      rw [if_neg (by simpa using ha)]
      simp only [List.find?, ha']
      exact ih h

theorem find?_of_mem_unique {store : Store} {rid : Nat} {r : PipelineRun}
    (hmem : r ∈ store) (hid : r.id = rid) (hnd : (store.map PipelineRun.id).Nodup) :
    store.find? (fun x => x.id == rid) = some r := by
  induction store with
  | nil => exact absurd hmem (List.not_mem_nil r)
  | cons a t ih =>
    simp only [List.map_cons, List.nodup_cons] at hnd
    rcases List.mem_cons.mp hmem with rfl | ht
    · exact List.find?_cons_of_pos _ (by simpa using hid)
    · have hane : a.id ≠ rid := by
        intro hae
        exact hnd.1 (hae ▸ hid ▸ List.mem_map_of_mem PipelineRun.id ht)
      rw [List.find?_cons_of_neg _ (by simpa using hane)]
      exact ih ht hnd.2

theorem updateRun_eq_map_commitStep (store : Store) (rid : Nat) (c : String × String) :
    updateRun store rid c.1 c.2 = store.map (fun r => commitStep rid r c) := rfl

theorem foldl_updateRun_eq_map (rid : Nat) :
    ∀ (cs : List (String × String)) (store : Store),
      cs.foldl (fun s c => updateRun s rid c.1 c.2) store = store.map (applyCommits cs rid)
  | [], store => by
    have h0 : applyCommits ([] : List (String × String)) rid = fun r => r :=
      funext fun r => rfl
    simp [h0]
  | c :: cs, store => by
    have ih := foldl_updateRun_eq_map rid cs (updateRun store rid c.1 c.2)
    simp only [List.foldl_cons] at *
    rw [ih, updateRun_eq_map_commitStep, List.map_map]
    rfl

theorem commitStep_id (rid : Nat) (r : PipelineRun) (c : String × String) :
    (commitStep rid r c).id = r.id := by
  unfold commitStep
  split <;> rfl

theorem commitStep_start_time (rid : Nat) (r : PipelineRun) (c : String × String) :
    (commitStep rid r c).start_time = r.start_time := by
  unfold commitStep
  split <;> rfl

theorem applyCommits_id (rid : Nat) :
    ∀ (cs : List (String × String)) (r : PipelineRun), (applyCommits cs rid r).id = r.id
  | [], _ => rfl
  | c :: cs, r => by
    rw [applyCommits, List.foldl_cons]
    exact (applyCommits_id rid cs (commitStep rid r c)).trans (commitStep_id rid r c)

theorem applyCommits_start_time (rid : Nat) :
    ∀ (cs : List (String × String)) (r : PipelineRun),
      (applyCommits cs rid r).start_time = r.start_time
  | [], _ => rfl
  | c :: cs, r => by
    rw [applyCommits, List.foldl_cons]
    exact (applyCommits_start_time rid cs (commitStep rid r c)).trans
      (commitStep_start_time rid r c)

theorem applyCommits_of_ne (rid : Nat) {r : PipelineRun} (hne : r.id ≠ rid) :
    ∀ cs : List (String × String), applyCommits cs rid r = r
  | [] => rfl
  | c :: cs => by
    have hstep : commitStep rid r c = r := by
      unfold commitStep
      rw [if_neg (by simpa using hne)]
    rw [applyCommits, List.foldl_cons, hstep]
    exact applyCommits_of_ne rid hne cs

theorem completedOutput_ne_empty (nowStr summary log : String) :
    completedOutput nowStr summary log ≠ "" := by
  intro h
  have hlen := congrArg String.length h
  simp only [completedOutput, String.length_append] at hlen
  have hpos : 0 <
      ("Pipeline Execution Summary:\n-------------------------\nStatus: Completed Successfully\nTimestamp: " : String).length := by
    decide
  rw [show ("" : String).length = 0 from rfl] at hlen
  omega

/-- C1 counterexample: when the executor exits with code 2, the background
task commits the status/output pair of the run record twice, not once —
the claim that the output field is written exactly once per run is false. -/
theorem terminal_write_not_unique :
    ¬ ((run_pipeline_task
        (PipelineEnv.ranProcess 2 "" "boom" ⟨QueryStep.exn "e", QueryStep.ok []⟩)
        "t").commits.length = 1) := by
  decide

/-- C1 (amended): the background task performs at least one and at most two
terminal commits per run: exactly one on exit code 0 and on a preparation
exception, but two exactly when the executor exits nonzero, in which case
both carry status failed and the second overwrites the output; the output
field is absent while the record is in status started. -/
theorem terminal_writes_bounded (env : PipelineEnv) (nowStr : String)
    (store : Store) (now : Nat) :
    (run_pipeline_task env nowStr).commits ≠ [] ∧
    (run_pipeline_task env nowStr).commits.length ≤ 2 ∧
    ((run_pipeline_task env nowStr).commits.length = 2 ↔
      ∃ rc out err db, env = PipelineEnv.ranProcess rc out err db ∧ rc ≠ 0) ∧
    ((run_pipeline_task env nowStr).commits.length = 2 →
      (run_pipeline_task env nowStr).commits.map Prod.fst = ["failed", "failed"]) ∧
    (newRunRecord store now).output = none := by
  cases env with
  | prepRaises e =>
    refine ⟨by simp [run_pipeline_task], by simp [run_pipeline_task], ?_, ?_, rfl⟩
    · constructor
      · intro h
        simp [run_pipeline_task] at h
      · rintro ⟨rc, out, err, db, heq, hrc⟩
        cases heq
    · intro h
      simp [run_pipeline_task] at h
  | ranProcess rc out err db =>
    by_cases hrc : rc = 0
    · subst hrc
      refine ⟨by simp [run_pipeline_task], by simp [run_pipeline_task], ?_, ?_, rfl⟩
      · constructor
        · intro h
          simp [run_pipeline_task] at h
        · rintro ⟨rc', out', err', db', heq, hrc'⟩
          injection heq with h1 h2 h3 h4
          exact absurd h1.symm hrc'
      · intro h
        simp [run_pipeline_task] at h
    · refine ⟨by simp [run_pipeline_task, hrc], by simp [run_pipeline_task, hrc], ?_, ?_, rfl⟩
      · exact ⟨fun _ => ⟨rc, out, err, db, rfl, hrc⟩,
          fun _ => by simp [run_pipeline_task, hrc]⟩
      · intro _
        simp [run_pipeline_task, hrc]

/-- C1 witness: at exit code 2 the two-commit hypothesis is satisfied and
both commits carry status failed. -/
theorem terminal_writes_bounded_w :
    (run_pipeline_task
      (PipelineEnv.ranProcess 2 "" "boom" ⟨QueryStep.exn "e", QueryStep.ok []⟩)
      "t").commits.map Prod.fst = ["failed", "failed"] :=
  (terminal_writes_bounded
    (PipelineEnv.ranProcess 2 "" "boom" ⟨QueryStep.exn "e", QueryStep.ok []⟩)
    "t" [] 0).2.2.2.1 (by decide)

/-- C2 counterexample: with a failing environment the task does not return
normally — an exception propagates out of `run_pipeline_task` after the
failed write is committed, refuting the claim as stated. -/
theorem task_reraises :
    ¬ ((run_pipeline_task (PipelineEnv.prepRaises "boom") "t").raised = none) := by
  decide

/-- C2 (amended): any failure inside the background task is caught and the
failed terminal write is committed, but the task then re-raises the
exception instead of returning normally; the triggering HTTP request is
unaffected because the response was already sent before the task ran. -/
theorem failure_recorded_before_reraise (env : PipelineEnv) (nowStr : String)
    (h : taskFails env) :
    (run_pipeline_task env nowStr).commits.getLast? =
      some ("failed", failureMessage env) ∧
    (run_pipeline_task env nowStr).raised = raisedMessage env ∧
    raisedMessage env ≠ none := by
  cases env with
  | prepRaises e =>
    exact ⟨rfl, rfl, by simp [raisedMessage]⟩
  | ranProcess rc out err db =>
    have hrc : rc ≠ 0 := h
    refine ⟨?_, ?_, ?_⟩ <;> simp [run_pipeline_task, raisedMessage, failureMessage, hrc,
      List.getLast?]

/-- C2 witness: at a concrete preparation failure, the last commit is the
failed write with its message and the raised exception is recorded. -/
theorem failure_recorded_before_reraise_w :
    (run_pipeline_task (PipelineEnv.prepRaises "boom") "t").commits.getLast? =
      some ("failed", failureMessage (PipelineEnv.prepRaises "boom")) ∧
    (run_pipeline_task (PipelineEnv.prepRaises "boom") "t").raised =
      raisedMessage (PipelineEnv.prepRaises "boom") ∧
    raisedMessage (PipelineEnv.prepRaises "boom") ≠ none :=
  failure_recorded_before_reraise (PipelineEnv.prepRaises "boom") "t" True.intro

/-- C3: every status the record of a run ever carries is one of started,
completed, failed, and the trace is monotonic — once a terminal status is
reached, every later status equals it; the POST handler only appends a new
record and never rewrites existing rows. -/
theorem status_valid_and_monotonic (env : PipelineEnv) (nowStr : String) :
    (∀ s ∈ statusTrace env nowStr, s = "started" ∨ s = "completed" ∨ s = "failed") ∧
    (∀ i j : Fin (statusTrace env nowStr).length, i ≤ j →
      isTerminal ((statusTrace env nowStr).get i) →
      (statusTrace env nowStr).get j = (statusTrace env nowStr).get i) ∧
    (∀ store now, (run_pipeline store now).1 = store ++ [newRunRecord store now]) := by
  cases env with
  | prepRaises e =>
    have htr : statusTrace (PipelineEnv.prepRaises e) nowStr = ["started", "failed"] := by
      simp [statusTrace, run_pipeline_task]
    refine ⟨?_, ?_, fun store now => rfl⟩
    · rw [htr]
      decide
    · rw [htr]
      decide
  | ranProcess rc out err db =>
    by_cases hrc : rc = 0
    · subst hrc
      have htr : statusTrace (PipelineEnv.ranProcess 0 out err db) nowStr =
          ["started", "completed"] := by
        simp [statusTrace, run_pipeline_task]
      refine ⟨?_, ?_, fun store now => rfl⟩
      · rw [htr]
        decide
      · rw [htr]
        decide
    · have htr : statusTrace (PipelineEnv.ranProcess rc out err db) nowStr =
          ["started", "failed", "failed"] := by
        simp [statusTrace, run_pipeline_task, hrc]
      refine ⟨?_, ?_, fun store now => rfl⟩
      · rw [htr]
        decide
      · rw [htr]
        decide

/-- C3 witness: with exit code 2 the trace reaches failed at position one
and the later status equals it. -/
theorem status_valid_and_monotonic_w :
    (statusTrace
      (PipelineEnv.ranProcess 2 "" "boom" ⟨QueryStep.exn "e", QueryStep.ok []⟩)
      "t").get ⟨2, by decide⟩ =
    (statusTrace
      (PipelineEnv.ranProcess 2 "" "boom" ⟨QueryStep.exn "e", QueryStep.ok []⟩)
      "t").get ⟨1, by decide⟩ :=
  (status_valid_and_monotonic
    (PipelineEnv.ranProcess 2 "" "boom" ⟨QueryStep.exn "e", QueryStep.ok []⟩)
    "t").2.1 ⟨1, by decide⟩ ⟨2, by decide⟩ (by decide) (by decide)

/-- C4: whenever the executor exits nonzero or execution raises, the run's
record ends committed with status failed and an output holding the
human-readable failure message. -/
theorem failed_run_marked (store : Store) (rid : Nat) (r : PipelineRun)
    (env : PipelineEnv) (nowStr : String)
    (hfind : store.find? (fun x => x.id == rid) = some r)
    (hfail : taskFails env) :
    (runTaskOnStore store rid env nowStr).find? (fun x => x.id == rid) =
      some { r with status := "failed", output := some (failureMessage env) } := by
  cases env with
  | prepRaises e =>
    simpa [runTaskOnStore, run_pipeline_task, failureMessage] using
      find?_updateRun "failed" ("Error during pipeline execution: " ++ e) hfind
  | ranProcess rc out err db =>
    have hrc : rc ≠ 0 := hfail
    have h1 := find?_updateRun "failed" ("Error:\n" ++ clean_ansi err) hfind
    have h2 := find?_updateRun "failed"
      (failureMessage (PipelineEnv.ranProcess rc out err db)) h1
    simpa [runTaskOnStore, run_pipeline_task, hrc, failureMessage] using h2

/-- C4 witness: a started record is marked failed with the failure message
after the executor exits with code 2. -/
theorem failed_run_marked_w :
    (runTaskOnStore [⟨1, 5, "started", none⟩] 1
        (PipelineEnv.ranProcess 2 "" "boom" ⟨QueryStep.exn "e", QueryStep.ok []⟩)
        "t").find? (fun x => x.id == 1) =
      some ⟨1, 5, "failed",
        some (failureMessage
          (PipelineEnv.ranProcess 2 "" "boom" ⟨QueryStep.exn "e", QueryStep.ok []⟩))⟩ :=
  failed_run_marked [⟨1, 5, "started", none⟩] 1 ⟨1, 5, "started", none⟩
    (PipelineEnv.ranProcess 2 "" "boom" ⟨QueryStep.exn "e", QueryStep.ok []⟩)
    "t" (by decide) (by decide)

/-- C5: on executor exit code 0 the run's record ends committed with status
completed and a non-empty output embedding the captured executor text. -/
theorem success_completes (store : Store) (rid : Nat) (r : PipelineRun)
    (out err : String) (db : SummaryDb) (nowStr : String)
    (hfind : store.find? (fun x => x.id == rid) = some r) :
    (runTaskOnStore store rid (PipelineEnv.ranProcess 0 out err db) nowStr).find?
        (fun x => x.id == rid) =
      some { r with status := "completed", output := some (completedOutput nowStr (get_data_summary db) (clean_ansi err)) } ∧
    completedOutput nowStr (get_data_summary db) (clean_ansi err) ≠ "" := by
  refine ⟨?_, completedOutput_ne_empty _ _ _⟩
  simpa [runTaskOnStore, run_pipeline_task] using
    find?_updateRun "completed"
      (completedOutput nowStr (get_data_summary db) (clean_ansi err)) hfind

/-- C5 witness: a started record is marked completed with the assembled
non-empty output after the executor exits with code 0. -/
theorem success_completes_w :
    (runTaskOnStore [⟨1, 5, "started", none⟩] 1
        (PipelineEnv.ranProcess 0 "" "log" ⟨QueryStep.exn "nm", QueryStep.ok []⟩)
        "2020").find? (fun x => x.id == 1) =
      some ⟨1, 5, "completed",
        some (completedOutput "2020"
          (get_data_summary ⟨QueryStep.exn "nm", QueryStep.ok []⟩)
          (clean_ansi "log"))⟩ ∧
    completedOutput "2020"
      (get_data_summary ⟨QueryStep.exn "nm", QueryStep.ok []⟩)
      (clean_ansi "log") ≠ "" :=
  success_completes [⟨1, 5, "started", none⟩] 1 ⟨1, 5, "started", none⟩
    "" "log" ⟨QueryStep.exn "nm", QueryStep.ok []⟩ "2020" (by decide)

/-- C6: the status endpoint answers with HTTP 200 in both cases; an id
matching no record yields the error payload Run not found, and an id
matching a record (ids being unique) yields that record's fields. -/
theorem status_lookup (store : Store) (rid : Nat) :
    (http_get_status store rid).1 = 200 ∧
    ((∀ r ∈ store, r.id ≠ rid) →
      (http_get_status store rid).2 = StatusResponse.errorResp "Run not found") ∧
    (∀ r, r ∈ store → r.id = rid → (store.map PipelineRun.id).Nodup →
      (http_get_status store rid).2 =
        StatusResponse.found r.id r.status r.start_time r.output) := by
  refine ⟨rfl, ?_, ?_⟩
  · intro hall
    have hnone : store.find? (fun x => x.id == rid) = none :=
      List.find?_eq_none.mpr (fun x hx => by simpa using hall x hx)
    simp [http_get_status, get_status, hnone]
  · intro r hmem hid hnd
    have hfind := find?_of_mem_unique hmem hid hnd
    simp [http_get_status, get_status, hfind]

/-- C6 witness: an unknown id gets the error payload and a present id gets
the record's fields. -/
theorem status_lookup_w :
    (http_get_status [⟨1, 5, "started", none⟩] 7).2 =
      StatusResponse.errorResp "Run not found" ∧
    (http_get_status [⟨1, 5, "started", none⟩] 1).2 =
      StatusResponse.found 1 "started" 5 none :=
  ⟨(status_lookup [⟨1, 5, "started", none⟩] 7).2.1 (by decide),
   (status_lookup [⟨1, 5, "started", none⟩] 1).2.2 ⟨1, 5, "started", none⟩
     (by decide) (by decide) (by decide)⟩

/-- C7: the runs listing returns a view of every record, ordered newest
first — at any two positions of the returned list, the earlier position
has the later (or equal) start time. -/
theorem runs_listing (store : Store) :
    List.Perm (get_runs store)
      (store.map (fun r => RunView.mk r.id r.status r.start_time r.output)) ∧
    ∀ i j : Fin (get_runs store).length, i < j →
      ((get_runs store).get j).start_time ≤ ((get_runs store).get i).start_time := by
  constructor
  · exact (List.perm_insertionSort startTimeDesc store).map _
  · have hs : List.Sorted startTimeDesc (List.insertionSort startTimeDesc store) :=
      List.sorted_insertionSort startTimeDesc store
    have hp : (get_runs store).Pairwise
        (fun a b : RunView => b.start_time ≤ a.start_time) := by
      unfold get_runs
      exact List.Pairwise.map _ (fun a b h => h) hs
    intro i j hij
    exact List.pairwise_iff_get.mp hp i j hij

/-- C7 witness: on a two-record store the listing puts the record with the
later start time first. -/
theorem runs_listing_w :
    ((get_runs [⟨1, 5, "started", none⟩, ⟨2, 9, "failed", some "x"⟩]).get
      ⟨1, by decide⟩).start_time ≤
    ((get_runs [⟨1, 5, "started", none⟩, ⟨2, 9, "failed", some "x"⟩]).get
      ⟨0, by decide⟩).start_time :=
  (runs_listing [⟨1, 5, "started", none⟩, ⟨2, 9, "failed", some "x"⟩]).2
    ⟨0, by decide⟩ ⟨1, by decide⟩ (by decide)

/-- C8: the trigger endpoint inserts exactly one new record — status
started, the current timestamp, no output — returns HTTP 200 with the
fresh run id, mutates nothing else, and an immediate status lookup of that
id answers started. -/
theorem trigger_run (store : Store) (now : Nat) :
    http_post_run store now =
      (store ++ [newRunRecord store now], (200, ⟨"Pipeline started", nextId store⟩)) ∧
    (newRunRecord store now).status = "started" ∧
    (newRunRecord store now).start_time = now ∧
    (newRunRecord store now).output = none ∧
    get_status (store ++ [newRunRecord store now]) (nextId store) =
      StatusResponse.found (nextId store) "started" now none := by
  refine ⟨rfl, rfl, rfl, rfl, ?_⟩
  have hnone : store.find? (fun x => x.id == nextId store) = none :=
    List.find?_eq_none.mpr (fun x hx => by
      have := id_lt_nextId hx
      simp only [beq_iff_eq]
      omega)
  simp [get_status, List.find?_append, hnone, List.find?, newRunRecord]

/-- C9: the background task's writes change only the status and output
fields of the record with the run's id: every record keeps its id and
start time, and a record with a different id is left entirely unchanged. -/
theorem terminal_write_frame (store : Store) (rid : Nat) (env : PipelineEnv)
    (nowStr : String) :
    runTaskOnStore store rid env nowStr =
      store.map (applyCommits (run_pipeline_task env nowStr).commits rid) ∧
    (∀ r : PipelineRun,
      (applyCommits (run_pipeline_task env nowStr).commits rid r).id = r.id) ∧
    (∀ r : PipelineRun,
      (applyCommits (run_pipeline_task env nowStr).commits rid r).start_time =
        r.start_time) ∧
    (∀ r : PipelineRun, r.id ≠ rid →
      applyCommits (run_pipeline_task env nowStr).commits rid r = r) :=
  ⟨foldl_updateRun_eq_map rid _ store,
   fun r => applyCommits_id rid _ r,
   fun r => applyCommits_start_time rid _ r,
   fun _ h => applyCommits_of_ne rid h _⟩

/-- C9 witness: a record whose id differs from the run's id is unchanged by
the task's writes. -/
theorem terminal_write_frame_w :
    applyCommits (run_pipeline_task (PipelineEnv.prepRaises "boom") "t").commits 1
      ⟨2, 7, "started", none⟩ = ⟨2, 7, "started", none⟩ :=
  (terminal_write_frame [] 1 (PipelineEnv.prepRaises "boom") "t").2.2.2
    ⟨2, 7, "started", none⟩ (by decide)

/-- C10: a failure inside the data-summary query never propagates — it is
returned as an error string which the success path embeds in the stored
output, and the run is still marked completed with no exception raised. -/
theorem summary_error_tolerated (out err e : String) (db : SummaryDb) (nowStr : String)
    (hdb : get_data_summary_try db = Except.error e) :
    get_data_summary db = "Error analyzing data: " ++ e ∧
    run_pipeline_task (PipelineEnv.ranProcess 0 out err db) nowStr =
      { commits := [("completed",
          completedOutput nowStr ("Error analyzing data: " ++ e) (clean_ansi err))],
        raised := none } := by
  have h1 : get_data_summary db = "Error analyzing data: " ++ e := by
    simp [get_data_summary, hdb]
  refine ⟨h1, ?_⟩
  simp [run_pipeline_task, h1]

/-- C10 witness: with the first summary query raising, the run still
completes and the error text is embedded in the stored output. -/
theorem summary_error_tolerated_w :
    get_data_summary ⟨QueryStep.exn "boom", QueryStep.ok []⟩ =
      "Error analyzing data: " ++ "boom" ∧
    run_pipeline_task
      (PipelineEnv.ranProcess 0 "" "log" ⟨QueryStep.exn "boom", QueryStep.ok []⟩) "t" =
      { commits := [("completed",
          completedOutput "t" ("Error analyzing data: " ++ "boom") (clean_ansi "log"))],
        raised := none } :=
  summary_error_tolerated "" "log" "boom" ⟨QueryStep.exn "boom", QueryStep.ok []⟩ "t" rfl

end RecipeMeltano
